import Mathlib

/-!
Verification of `flashair_sync.py` (FlashAir SD-card sync engine).

The Python source is shallowly embedded: every pure helper
(`collect_new_files`, `cleanup_local`, `pending_scp_files`, the listing
parser, the SCP loop) becomes an executable Lean function over `String` /
`List String`, and the orchestrator `run` becomes a function from an
explicit oracle (`World`: the results the external environment would give
to each WiFi / HTTP / subprocess call) and a persisted state (`SyncState`:
the two `.env` watermarks plus the local CSV directory) to a final state,
an event trace, and a flag recording whether an uncaught exception
propagated out of `run`.

Python string comparison is lexicographic on code points; it is embedded
by structural-recursive comparators on `List Char` (`charListLt`), proved
equivalent to Mathlib's linear order on `String`, so that proofs can use
order lemmas while concrete witnesses still evaluate by `decide`.
-/

namespace FlashairSync

/-! ## String primitives (embedding of the Python `str` operations used) -/

/-- Lexicographic `<` on code-point lists: the order Python uses to compare
`str` values. Structural so the kernel can evaluate it. -/
def charListLt : List Char → List Char → Bool
  | [], [] => false
  | [], _ :: _ => true
  | _ :: _, [] => false
  | a :: as, b :: bs =>
    if a < b then true
    else if b < a then false
    else charListLt as bs

/-- Python `a < b` on strings. -/
def strLt (a b : String) : Bool := charListLt a.data b.data

/-- Python `a <= b` on strings (total order, so `a <= b` iff `not (b < a)`). -/
def strLe (a b : String) : Bool := !(charListLt b.data a.data)

/-- Python `s.startswith(p)`. -/
def strStartsWith (s p : String) : Bool := p.data.isPrefixOf s.data

/-- Python `s.endswith(p)`. -/
def strEndsWith (s p : String) : Bool := p.data.reverse.isPrefixOf s.data.reverse

/-- Python `s.lower()` (ASCII case folding, enough for the filenames here). -/
def strToLower (s : String) : String := ⟨s.data.map Char.toLower⟩

/-- Python `s.strip()`: drop whitespace from both ends. -/
def strTrim (s : String) : String :=
  ⟨((s.data.dropWhile Char.isWhitespace).reverse.dropWhile Char.isWhitespace).reverse⟩

/-- Split a code-point list at every occurrence of `sep`
(Python `s.split(sep)` for a one-character separator). -/
def splitCharList (sep : Char) : List Char → List (List Char)
  | [] => [[]]
  | c :: cs =>
    let r := splitCharList sep cs
    if c == sep then [] :: r
    else
      match r with
      | h :: t => (c :: h) :: t
      | [] => [[c]]

/-- Python `s.split(sep)` for a one-character separator. -/
def strSplitOnChar (sep : Char) (s : String) : List String :=
  (splitCharList sep s.data).map (fun l => ⟨l⟩)

/-! ## Filename filters

`list_flashair_files` keeps a listing entry iff
`fname.startswith("log_") and fname.lower().endswith(".csv")`.
The local enumerations (`cleanup_local`, `pending_scp_files`) instead use
the glob pattern `log_*_*.csv` (case sensitive). -/

/-- Filter applied to each filename field of the device listing:
`fname.startswith("log_") and fname.lower().endswith(".csv")`. -/
def matchesListingFilter (s : String) : Bool :=
  strStartsWith s "log_" && strEndsWith (strToLower s) ".csv"

/-- The glob pattern `log_*_*.csv` used by `cleanup_local` and
`pending_scp_files`: the name decomposes as
`"log_" ++ a ++ "_" ++ b ++ ".csv"`, i.e. it starts with `log_`, ends with
`.csv` (case sensitive), and the part in between contains another `_`. -/
def matchesLocalPattern (s : String) : Bool :=
  strStartsWith s "log_" && strEndsWith s ".csv" &&
    ((s.data.drop 4).take (s.data.length - 8)).contains '_'

/-! ## Sorting (Python `sorted`) -/

/-- The relation `sorted` sorts by: Python `<=` on strings. -/
def strLeRel (a b : String) : Prop := strLe a b = true

instance : DecidableRel strLeRel := fun a b => by
  unfold strLeRel
  infer_instance

/-- Python `sorted` on a list of filenames (stable insertion sort under
lexicographic `<=`). -/
def sortStr (l : List String) : List String := l.insertionSort strLeRel

/-! ## Device listing parser (`list_flashair_files`) -/

/-- Process one line of the FlashAir `command.cgi?op=100` response:
skip the `WLANSD_FILELIST` header, split on commas, take field 1,
strip it, and keep it iff it passes the listing filter. -/
def listingLineName (line : String) : Option String :=
  if strStartsWith line "WLANSD_FILELIST" then none
  else
    match strSplitOnChar ',' line with
    | _ :: f :: _ =>
      let fname := strTrim f
      if matchesListingFilter fname then some fname else none
    | _ => none

/-- Pure part of `list_flashair_files`: parse the HTTP response body into
the sorted list of matching filenames. (`splitlines` is modelled as a
split on `'\n'`; a stray `'\r'` can only reach the final field of a
record, and the filename field is stripped anyway.) -/
def list_flashair_files (content : String) : List String :=
  sortStr ((strSplitOnChar '\n' content).filterMap listingLineName)

/-! ## File management helpers -/

/-- `collect_new_files`: split the listing into `(new, skipped)`; a file is
skipped iff the watermark is non-empty and the name sorts `<=` it. -/
def collect_new_files : List String → String → List String × List String
  | [], _ => ([], [])
  | f :: fs, watermark =>
    let r := collect_new_files fs watermark
    if !(watermark == "") && strLe f watermark then (r.1, f :: r.2)
    else (f :: r.1, r.2)

/-- `cleanup_local`: among the local files matching `log_*_*.csv` (sorted),
delete those `<=` the watermark that are not among the `keep_recent` most
recent; returns the deleted names in deletion order. (`all_csvs[-k:]` for
`k = 0` is the whole list in Python, hence the special case.) -/
def cleanup_local (dirFiles : List String) (watermark : String)
    (keep_recent : Nat) : List String :=
  let all_csvs := sortStr (dirFiles.filter matchesLocalPattern)
  let protectedNames :=
    if keep_recent = 0 then all_csvs
    else all_csvs.drop (all_csvs.length - keep_recent)
  all_csvs.filter (fun f => strLe f watermark && !(protectedNames.contains f))

/-- `pending_scp_files`: local files matching `log_*_*.csv`, sorted, kept
iff the SCP watermark is empty or the name sorts strictly above it. -/
def pending_scp_files (dirFiles : List String) (scp_watermark : String) :
    List String :=
  let all_csvs := sortStr (dirFiles.filter matchesLocalPattern)
  all_csvs.filter (fun f => (scp_watermark == "") || strLt scp_watermark f)

/-- Python `max` over a non-empty list of names (`max(...)` in `run`);
returns `""` on an empty list (never used on one). -/
def maxName : List String → String
  | [] => ""
  | x :: xs => xs.foldl (fun a b => if strLt a b then b else a) x

/-! ## SCP transfer (`scp_files`) -/

/-- Result of `scp_files`: the returned count, the `last_ok` name, the
files actually attempted (in order), and the watermark written by the
trailing `save_last_scpd` call (`none` when `last_ok` stayed empty). -/
structure ScpResult where
  transferred : Nat
  last_ok : String
  attempted : List String
  saved : Option String
deriving DecidableEq, Repr

/-- The `for path in local_paths` loop of `scp_files`, with the
`transferred` / `last_ok` accumulators; `ok` is the oracle for each file's
`scp` exit status. Stops at the first failure (`break`). -/
def scpGo (ok : String → Bool) : List String → Nat → String →
    Nat × String × List String
  | [], t, lo => (t, lo, [])
  | f :: fs, t, lo =>
    if ok f then
      let r := scpGo ok fs (t + 1) f
      (r.1, r.2.1, f :: r.2.2)
    else (t, lo, [f])

/-- `scp_files`: send each file in order, stop at the first failure, and
save `LAST_SCPD := last_ok` iff some transfer succeeded. -/
def scp_files (ok : String → Bool) (local_paths : List String) : ScpResult :=
  let r := scpGo ok local_paths 0 ""
  { transferred := r.1
    last_ok := r.2.1
    attempted := r.2.2
    saved := if r.2.1 == "" then none else some r.2.1 }

/-! ## The orchestrator `run`

`run` is embedded as a function of a `Config`, an oracle `World` giving
the result of every external call the run would make, the `resync` flag,
and the persisted state. It returns the final state, the trace of
externally visible actions, and whether an uncaught exception escaped
(the only uncaught one in the device/upload path is the listing request
failing, since `download_file` errors are caught per file and the inner
`try` block has only a `finally`). -/

/-- Immutable configuration for one run (`Config` dataclass). Fields that
are only interpolated into shell commands or URLs are carried verbatim. -/
structure Config where
  flashair_ssid : String
  flashair_password : String
  flashair_ip : String
  flashair_dir : String
  home_ssid : String
  home_password : String
  local_csv_dir : String
  remote_host : String
  remote_user : String
  remote_dir : String
  ssh_key_path : String
  wifi_interface : String

/-- Oracle for the external environment during one run: what each WiFi,
HTTP and subprocess call would return. `listing = none` means the listing
request itself cannot complete (the `urlopen` raises). -/
structure World where
  currentSsid : String
  inCooldown : Bool
  scanFinds : Bool
  reachable : Bool
  listing : Option String
  downloadOk : String → Bool
  scpOk : String → Bool

/-- Persisted state: the two `.env` watermarks and the set of filenames in
the local CSV directory. -/
structure SyncState where
  lastSynced : String
  lastScpd : String
  localFiles : List String
deriving DecidableEq, Repr

/-- Externally visible actions of a run, in order. -/
inductive Event where
  | scan
  | joinFlashair
  | reconnectHome (netId : Option Nat)
  | awaitHttp (ok : Bool)
  | touchCooldown
  | downloadAttempt (name : String) (ok : Bool)
  | scpAttempt (name : String) (ok : Bool)
  | deleteFile (name : String)
deriving DecidableEq, Repr

/-- Result of one `run` invocation. -/
structure RunResult where
  state : SyncState
  events : List Event
  exc : Bool
deriving DecidableEq, Repr

/-- Add a downloaded file to the local directory (writing an existing name
overwrites it). -/
def addLocal (files : List String) (f : String) : List String :=
  if files.contains f then files else files ++ [f]

/-- The `for fname in new_files` download loop: each fetch is attempted;
a failure is caught, logged and skipped. Returns the successfully
downloaded names (in order) and the attempt events. -/
def downloadLoop (ok : String → Bool) : List String → List String × List Event
  | [] => ([], [])
  | f :: fs =>
    let r := downloadLoop ok fs
    if ok f then (f :: r.1, Event.downloadAttempt f true :: r.2)
    else (r.1, Event.downloadAttempt f false :: r.2)

/-- Body of the device session (the inner `try` block of `run`):
reachability wait, listing, partition, download loop, watermark commit and
cooldown touch. The third component records whether an exception escaped
(only the listing request can raise uncaught). -/
def deviceBody (w : World) (resync : Bool) (st : SyncState) :
    SyncState × List Event × Bool :=
  if !w.reachable then (st, [Event.awaitHttp false], false)
  else
    match w.listing with
    | none => (st, [Event.awaitHttp true], true)
    | some content =>
      let remote_files := list_flashair_files content
      let watermark := if resync then "" else st.lastSynced
      let ns := collect_new_files remote_files watermark
      if ns.1 = [] then (st, [Event.awaitHttp true, Event.touchCooldown], false)
      else
        let dl := downloadLoop w.downloadOk ns.1
        let st1 := { st with localFiles := dl.1.foldl addLocal st.localFiles }
        if dl.1 = [] then (st1, Event.awaitHttp true :: dl.2, false)
        else
          ({ st1 with lastSynced := maxName dl.1 },
           (Event.awaitHttp true :: dl.2) ++ [Event.touchCooldown], false)

/-- Phase 2 of `run`: enumerate pending files and SCP them; `scp_files`
itself commits `LAST_SCPD` when at least one transfer succeeded. -/
def scpPhase (w : World) (st : SyncState) : SyncState × List Event :=
  let to_scp := pending_scp_files st.localFiles st.lastScpd
  if to_scp = [] then (st, [])
  else
    let r := scp_files w.scpOk to_scp
    let st1 :=
      match r.saved with
      | some wm => { st with lastScpd := wm }
      | none => st
    (st1, r.attempted.map (fun f => Event.scpAttempt f (w.scpOk f)))

/-- Phase 3 of `run`: cleanup keyed to the download watermark, only when
it is non-empty. -/
def cleanupPhase (st : SyncState) : SyncState × List Event :=
  if st.lastSynced = "" then (st, [])
  else
    let deleted := cleanup_local st.localFiles st.lastSynced 10
    ({ st with localFiles := st.localFiles.filter (fun f => !(deleted.contains f)) },
     deleted.map Event.deleteFile)

/-- Phases 2 and 3 in sequence (always executed when no exception escaped
the device phase). -/
def phases23 (w : World) (st : SyncState) : SyncState × List Event :=
  let r2 := scpPhase w st
  let r3 := cleanupPhase r2.1
  (r3.1, r2.2 ++ r3.2)

/-- The run-start decision ladder of Phase 1 (first matching rule wins):
already on FlashAir / cooldown skip / disconnected recovery / scan.
Returns (`already_on_flashair` after the ladder, `net_id`, events). -/
def phase1 (cfg : Config) (w : World) (resync : Bool) :
    Bool × Option Nat × List Event :=
  if w.currentSsid == cfg.flashair_ssid then (true, none, [])
  else if w.inCooldown && !resync then (false, none, [])
  else if w.currentSsid == "" then (false, none, [Event.reconnectHome none])
  else if w.scanFinds then (true, some 0, [Event.scan, Event.joinFlashair])
  else (false, none, [Event.scan])

/-- Whether the run enters a device session (the
`already_on_flashair or net_id is not None` guard). -/
def enteredDevice (cfg : Config) (w : World) (resync : Bool) : Bool :=
  (phase1 cfg w resync).1 || (phase1 cfg w resync).2.1.isSome

/-- One invocation of `run` (after the lock was acquired): Phase 1
decision ladder, optional device session with its unconditional
`finally: reconnect_home`, then SCP and cleanup phases. When the listing
request raises, `reconnect_home` still runs but the exception propagates:
phases 2 and 3 are skipped and the process exits abnormally. -/
def run (cfg : Config) (w : World) (resync : Bool) (st0 : SyncState) :
    RunResult :=
  let p1 := phase1 cfg w resync
  if p1.1 || p1.2.1.isSome then
    let d := deviceBody w resync st0
    let evs := p1.2.2 ++ d.2.1 ++ [Event.reconnectHome p1.2.1]
    if d.2.2 then { state := d.1, events := evs, exc := true }
    else
      let r23 := phases23 w d.1
      { state := r23.1, events := evs ++ r23.2, exc := false }
  else
    let r23 := phases23 w st0
    { state := r23.1, events := p1.2.2 ++ r23.2, exc := false }

/-- True exactly on `reconnectHome` events (for counting return-home
attempts in a trace). -/
def isReconnectHomeEv : Event → Bool
  | Event.reconnectHome _ => true
  | _ => false

/-! ## Concrete scenarios used in counterexamples and witnesses -/

/-- A representative configuration. -/
def exCfg : Config :=
  { flashair_ssid := "FlashAir", flashair_password := "12345678",
    flashair_ip := "192.168.0.1", flashair_dir := "/",
    home_ssid := "HomeWiFi", home_password := "secret",
    local_csv_dir := "/home/pi/csvs", remote_host := "192.168.1.100",
    remote_user := "leith", remote_dir := "/home/leith/savvy/csvs",
    ssh_key_path := "/home/pi/.ssh/id_ed25519", wifi_interface := "wlan0" }

/-- Empty persisted state. -/
def stEmpty : SyncState := { lastSynced := "", lastScpd := "", localFiles := [] }

/-- Device reachable but its listing now holds only a file older than the
stored watermark (all downloads succeed). -/
def wOldOnly : World :=
  { currentSsid := "FlashAir", inCooldown := false, scanFinds := false,
    reachable := true,
    listing := some "WLANSD_FILELIST\n/DIR,log_001_a.csv,100,0,0,0",
    downloadOk := fun _ => true, scpOk := fun _ => false }

/-- State whose download watermark is ahead of everything `wOldOnly`
lists. -/
def stAhead : SyncState :=
  { lastSynced := "log_002_b.csv", lastScpd := "", localFiles := [] }

/-- Device session entered and HTTP reachable, but the listing request
itself fails; uploads would succeed if attempted. -/
def wListFail : World :=
  { currentSsid := "FlashAir", inCooldown := false, scanFinds := false,
    reachable := true, listing := none,
    downloadOk := fun _ => true, scpOk := fun _ => true }

/-- State with one local file pending upload. -/
def stPendingOne : SyncState :=
  { lastSynced := "", lastScpd := "", localFiles := ["log_001_a.csv"] }

/-- Listing offers two new files and fetching `log_003_c.csv` fails while
`log_002_b.csv` succeeds. -/
def wPartialFail : World :=
  { currentSsid := "FlashAir", inCooldown := false, scanFinds := false,
    reachable := true,
    listing := some
      "WLANSD_FILELIST\n/DIR,log_002_b.csv,100,0,0,0\n/DIR,log_003_c.csv,100,0,0,0",
    downloadOk := fun f => f == "log_002_b.csv", scpOk := fun _ => false }

/-- State already synced through `log_001_a.csv`. -/
def stSyncedOne : SyncState :=
  { lastSynced := "log_001_a.csv", lastScpd := "", localFiles := [] }

/-- On the home network, scan finds the device, but the device HTTP server
never becomes reachable. -/
def wScanHit : World :=
  { currentSsid := "HomeWiFi", inCooldown := false, scanFinds := true,
    reachable := false, listing := none,
    downloadOk := fun _ => false, scpOk := fun _ => false }

/-- On the home network during cooldown. -/
def wCooldownHome : World :=
  { currentSsid := "HomeWiFi", inCooldown := true, scanFinds := false,
    reachable := false, listing := none,
    downloadOk := fun _ => false, scpOk := fun _ => false }

/-- Still associated with the device network at run start (recovery),
even though the cooldown is active. -/
def wRecovery : World :=
  { currentSsid := "FlashAir", inCooldown := true, scanFinds := false,
    reachable := false, listing := none,
    downloadOk := fun _ => false, scpOk := fun _ => false }

/-- Listing offers `log_1.CSV`: accepted by the listing filter (the
extension test is case-insensitive) but not by the local glob. -/
def wMixedCase : World :=
  { currentSsid := "FlashAir", inCooldown := false, scanFinds := false,
    reachable := true,
    listing := some "WLANSD_FILELIST\n/DIR,log_1.CSV,100,0,0,0",
    downloadOk := fun _ => true, scpOk := fun _ => true }

/-- Twelve local files, lexically ascending. -/
def files12 : List String :=
  ["log_001_a.csv", "log_002_b.csv", "log_003_c.csv", "log_004_d.csv",
   "log_005_e.csv", "log_006_f.csv", "log_007_g.csv", "log_008_h.csv",
   "log_009_i.csv", "log_010_j.csv", "log_011_k.csv", "log_012_l.csv"]

/-! ## Helper lemmas -/

/-! ### Bridge from the boolean comparators to Mathlib's order on `String` -/

theorem charListLt_iff :
    ∀ l₁ l₂ : List Char, charListLt l₁ l₂ = true ↔ List.Lex (· < ·) l₁ l₂
  | [], [] => by
    simp only [charListLt, Bool.false_eq_true, false_iff]
    exact List.Lex.not_nil_right _ _
  | [], _ :: _ => by
    simp only [charListLt, true_iff]
    exact List.Lex.nil
  | _ :: _, [] => by
    simp only [charListLt, Bool.false_eq_true, false_iff]
    exact List.Lex.not_nil_right _ _
  | a :: as, b :: bs => by
    simp only [charListLt]
    by_cases hab : a < b
    · simp only [hab, if_true, true_iff]
      exact List.Lex.rel hab
    · by_cases hba : b < a
      · simp only [hab, hba, if_true, if_false, Bool.false_eq_true, false_iff]
        intro h
        cases h with
        | rel h' => exact hab h'
        | cons _ => exact lt_irrefl a hba
      · have heq : a = b := le_antisymm (not_lt.mp hba) (not_lt.mp hab)
        subst heq
        simp only [hab, if_false]
        rw [charListLt_iff as bs]
        constructor
        · exact fun h => List.Lex.cons h
        · intro h
          cases h with
          | rel h' => exact absurd h' (lt_irrefl a)
          | cons h' => exact h'

theorem strLt_iff (a b : String) : strLt a b = true ↔ a < b := by
  rw [strLt, charListLt_iff, String.lt_iff_toList_lt]
  exact Iff.rfl

theorem strLe_iff (a b : String) : strLe a b = true ↔ a ≤ b := by
  have hlt : charListLt b.data a.data = true ↔ b < a := by
    rw [charListLt_iff]
    exact (@String.lt_iff_toList_lt b a).symm
  show (!(charListLt b.data a.data)) = true ↔ a ≤ b
  constructor
  · intro h
    refine not_lt.mp (fun hba => ?_)
    rw [hlt.mpr hba] at h
    simp at h
  · intro h
    cases hx : charListLt b.data a.data
    · rfl
    · exact absurd (hlt.mp hx) (not_lt.mpr h)

theorem strLe_empty_left (s : String) : strLe "" s = true := by
  rw [strLe, Bool.not_eq_true']
  cases s with
  | mk data => cases data <;> rfl

theorem empty_le_string (s : String) : "" ≤ s :=
  (strLe_iff "" s).mp (strLe_empty_left s)

theorem sortStr_perm (l : List String) : List.Perm (sortStr l) l :=
  List.perm_insertionSort strLeRel l

theorem sortStr_sorted_le (l : List String) : (sortStr l).Sorted (· ≤ ·) := by
  haveI : IsTotal String strLeRel :=
    ⟨fun a b => by
      rw [strLeRel, strLeRel, strLe_iff, strLe_iff]
      exact le_total a b⟩
  haveI : IsTrans String strLeRel :=
    ⟨fun a b c hab hbc => by
      rw [strLeRel, strLe_iff] at *
      exact le_trans hab hbc⟩
  have h := List.sorted_insertionSort strLeRel l
  exact h.imp (fun hab => (strLe_iff _ _).mp hab)

theorem mem_sortStr {x : String} {l : List String} : x ∈ sortStr l ↔ x ∈ l :=
  (sortStr_perm l).mem_iff

theorem strLt_eq_false_iff (a b : String) : strLt a b = false ↔ b ≤ a := by
  constructor
  · intro h
    refine not_lt.mp (fun hab => ?_)
    have := (strLt_iff a b).mpr hab
    rw [h] at this
    cases this
  · intro h
    cases hx : strLt a b
    · rfl
    · exact absurd ((strLt_iff a b).mp hx) (not_lt.mpr h)

theorem strLe_eq_false_iff (a b : String) : strLe a b = false ↔ b < a := by
  constructor
  · intro h
    refine not_le.mp (fun hab => ?_)
    have := (strLe_iff a b).mpr hab
    rw [h] at this
    cases this
  · intro h
    cases hx : strLe a b
    · rfl
    · exact absurd ((strLe_iff a b).mp hx) (not_le.mpr h)

/-- The loop of `collect_new_files` is the pair of complementary filters:
new iff the watermark is empty or lexically below the name, skipped iff
the watermark is non-empty and the name is `<=` it. -/
theorem collect_new_files_eq (files : List String) (wm : String) :
    collect_new_files files wm =
      (files.filter (fun f => (wm == "") || strLt wm f),
       files.filter (fun f => !(wm == "") && strLe f wm)) := by
  induction files with
  | nil => rfl
  | cons f fs ih =>
    have hcompl : ((wm == "") || strLt wm f) = !(!(wm == "") && strLe f wm) := by
      cases hw : (wm == "")
      · simp only [Bool.false_or, Bool.not_false, Bool.true_and]
        cases hle : strLe f wm
        · simp only [Bool.not_false]
          exact (strLt_iff wm f).mpr ((strLe_eq_false_iff f wm).mp hle)
        · simp only [Bool.not_true]
          exact (strLt_eq_false_iff wm f).mpr ((strLe_iff f wm).mp hle)
      · rfl
    simp only [collect_new_files, ih, List.filter_cons, hcompl]
    cases hc : (!(wm == "") && strLe f wm) <;> simp [hc]

theorem mem_new_files_ge {files : List String} {wm f : String}
    (h : f ∈ (collect_new_files files wm).1) : wm ≤ f := by
  rw [collect_new_files_eq] at h
  have hcond := (List.mem_filter.mp h).2
  rcases Bool.or_eq_true_iff.mp hcond with hemp | hlt
  · have hw : wm = "" := by simpa using hemp
    rw [hw]
    exact empty_le_string f
  · exact le_of_lt ((strLt_iff wm f).mp hlt)

/-- Successfully downloaded files are the `downloadOk`-filter of the
attempted list, and every file is attempted. -/
theorem downloadLoop_eq (ok : String → Bool) (l : List String) :
    downloadLoop ok l =
      (l.filter ok, l.map (fun f => Event.downloadAttempt f (ok f))) := by
  induction l with
  | nil => rfl
  | cons f fs ih =>
    cases h : ok f <;> simp [downloadLoop, ih, List.filter_cons, h]

/-- The SCP loop on `pre ++ f :: post` where everything in `pre` succeeds
and `f` fails: `pre.length` transfers, `last_ok` the last of `pre`
(falling back to the accumulator), attempts stop right after `f`. -/
theorem scpGo_spec (ok : String → Bool) (f : String) (post : List String)
    (hf : ok f = false) :
    ∀ (pre : List String) (t : Nat) (lo : String), (∀ g ∈ pre, ok g = true) →
      scpGo ok (pre ++ f :: post) t lo = (t + pre.length, pre.getLastD lo, pre ++ [f])
  | [], t, lo, _ => by simp [scpGo, hf]
  | p :: ps, t, lo, hpre => by
    have hp : ok p = true := hpre p (by simp)
    simp only [List.cons_append, scpGo, hp, if_true, List.append_eq]
    rw [scpGo_spec ok f post hf ps (t + 1) p (fun g hg => hpre g (by simp [hg]))]
    simp only [List.getLastD_cons, List.length_cons, List.cons_append,
      Prod.mk.injEq, and_true, true_and]
    omega

/-- The `last_ok` accumulator of the SCP loop is either its initial value
or one of the processed paths. -/
theorem scpGo_last_ok_mem (ok : String → Bool) :
    ∀ (paths : List String) (t : Nat) (lo : String),
      (scpGo ok paths t lo).2.1 = lo ∨ (scpGo ok paths t lo).2.1 ∈ paths
  | [], _, _ => Or.inl rfl
  | p :: ps, t, lo => by
    cases h : ok p
    · simp [scpGo, h]
    · simp only [scpGo, h, if_true]
      rcases scpGo_last_ok_mem ok ps (t + 1) p with h' | h'
      · exact Or.inr (by rw [h']; simp)
      · exact Or.inr (by simp [h'])

theorem foldl_max_acc_le :
    ∀ (xs : List String) (a : String),
      a ≤ xs.foldl (fun x b => if strLt x b then b else x) a
  | [], a => le_refl a
  | x :: xs, a => by
    simp only [List.foldl]
    by_cases h : strLt a x = true
    · simp only [h, if_true]
      exact le_trans (le_of_lt ((strLt_iff a x).mp h)) (foldl_max_acc_le xs x)
    · simp only [h, if_false]
      exact foldl_max_acc_le xs a

theorem foldl_max_le_of_mem :
    ∀ (xs : List String) (a y : String), y ∈ xs →
      y ≤ xs.foldl (fun x b => if strLt x b then b else x) a
  | x :: xs, a, y, hy => by
    simp only [List.foldl]
    rcases List.mem_cons.mp hy with rfl | hy'
    · by_cases h : strLt a y = true
      · simp only [h, if_true]
        exact foldl_max_acc_le xs y
      · simp only [h, if_false]
        have : y ≤ a := by
          cases hx : strLt a y
          · exact (strLt_eq_false_iff a y).mp hx
          · exact absurd hx h
        exact le_trans this (foldl_max_acc_le xs a)
    · by_cases h : strLt a x = true <;> simp only [h, if_true, if_false] <;>
        exact foldl_max_le_of_mem xs _ y hy'

theorem foldl_max_mem :
    ∀ (xs : List String) (a : String),
      xs.foldl (fun x b => if strLt x b then b else x) a = a ∨
        xs.foldl (fun x b => if strLt x b then b else x) a ∈ xs
  | [], a => Or.inl rfl
  | x :: xs, a => by
    simp only [List.foldl]
    by_cases h : strLt a x = true
    · simp only [h, if_true]
      rcases foldl_max_mem xs x with h' | h'
      · exact Or.inr (by rw [h']; simp)
      · exact Or.inr (by simp [h'])
    · simp only [h, if_false]
      rcases foldl_max_mem xs a with h' | h'
      · exact Or.inl h'
      · exact Or.inr (by simp [h'])

theorem maxName_mem {l : List String} (h : l ≠ []) : maxName l ∈ l := by
  cases l with
  | nil => exact absurd rfl h
  | cons x xs =>
    rcases foldl_max_mem xs x with h' | h'
    · rw [maxName, h']
      simp
    · rw [maxName]
      simp [h']

theorem le_maxName {l : List String} {y : String} (h : y ∈ l) : y ≤ maxName l := by
  cases l with
  | nil => cases h
  | cons x xs =>
    rcases List.mem_cons.mp h with rfl | h'
    · exact foldl_max_acc_le xs y
    · exact foldl_max_le_of_mem xs x y h'

/-- Membership in the last `k` entries of a strictly sorted list is the
same as having fewer than `k` strictly larger entries. -/
theorem mem_drop_sorted_iff (l : List String) (hs : l.Sorted (· < ·))
    (k : Nat) (x : String) :
    x ∈ l.drop (l.length - k) ↔
      x ∈ l ∧ (l.filter (fun g => strLt x g)).length < k := by
  induction l with
  | nil => simp
  | cons a t ih =>
    have ha : ∀ b ∈ t, a < b := (List.sorted_cons.mp hs).1
    have ht : t.Sorted (· < ·) := (List.sorted_cons.mp hs).2
    by_cases hk : t.length + 1 ≤ k
    · have h0 : (a :: t).length - k = 0 := by simp only [List.length_cons]; omega
      rw [h0, List.drop_zero]
      constructor
      · intro hx
        refine ⟨hx, ?_⟩
        have hlt : ((a :: t).filter (fun g => strLt x g)).length < (a :: t).length :=
          List.length_filter_lt_length_iff_exists.mpr
            ⟨x, hx, by simp [(strLt_eq_false_iff x x).mpr (le_refl x)]⟩
        simp only [List.length_cons] at hlt
        omega
      · exact fun h => h.1
    · have hstep : (a :: t).length - k = (t.length - k) + 1 := by
        simp only [List.length_cons]; omega
      rw [hstep, List.drop_succ_cons]
      by_cases hxa : x = a
      · subst hxa
        constructor
        · intro hmem
          exact absurd (ha x (List.mem_of_mem_drop hmem)) (lt_irrefl x)
        · rintro ⟨-, hflt⟩
          exfalso
          have hxx : strLt x x = false := (strLt_eq_false_iff x x).mpr (le_refl x)
          have hall : ∀ b ∈ t, strLt x b = true :=
            fun b hb => (strLt_iff x b).mpr (ha b hb)
          rw [List.filter_cons] at hflt
          simp only [hxx, Bool.false_eq_true, if_false,
            List.filter_eq_self.mpr hall] at hflt
          omega
      · have hfa : strLt x a = false ∨ x ∉ t := by
          by_cases hxt : x ∈ t
          · exact Or.inl ((strLt_eq_false_iff x a).mpr (le_of_lt (ha x hxt)))
          · exact Or.inr hxt
        constructor
        · intro hmem
          have hxt : x ∈ t := List.mem_of_mem_drop hmem
          have hfa' : strLt x a = false :=
            (strLt_eq_false_iff x a).mpr (le_of_lt (ha x hxt))
          have hiff := (ih ht).mp hmem
          refine ⟨List.mem_cons_of_mem a hiff.1, ?_⟩
          rw [List.filter_cons]
          simp only [hfa', Bool.false_eq_true, if_false]
          exact hiff.2
        · rintro ⟨hmem, hflt⟩
          have hxt : x ∈ t := List.mem_of_ne_of_mem hxa hmem
          have hfa' : strLt x a = false :=
            (strLt_eq_false_iff x a).mpr (le_of_lt (ha x hxt))
          rw [List.filter_cons] at hflt
          simp only [hfa', Bool.false_eq_true, if_false] at hflt
          exact (ih ht).mpr ⟨hxt, hflt⟩

/-- A sorted-by-`<=`, duplicate-free list is strictly sorted. -/
theorem sorted_lt_of_sorted_le_nodup {l : List String}
    (hle : l.Sorted (· ≤ ·)) (hnd : l.Nodup) : l.Sorted (· < ·) :=
  (hle.and hnd).imp (fun hab => lt_of_le_of_ne hab.1 hab.2)

theorem mem_pending_ge {dir : List String} {wm f : String}
    (h : f ∈ pending_scp_files dir wm) : wm ≤ f := by
  have hcond := (List.mem_filter.mp h).2
  rcases Bool.or_eq_true_iff.mp hcond with hemp | hlt
  · have hw : wm = "" := by simpa using hemp
    rw [hw]
    exact empty_le_string f
  · exact le_of_lt ((strLt_iff wm f).mp hlt)

/-! ### Per-phase facts used to assemble the run-level theorems -/

theorem scpPhase_lastSynced (w : World) (st : SyncState) :
    (scpPhase w st).1.lastSynced = st.lastSynced := by
  rw [scpPhase]
  by_cases h : pending_scp_files st.localFiles st.lastScpd = []
  · simp [h]
  · simp only [h, if_false]
    cases hs : (scp_files w.scpOk (pending_scp_files st.localFiles st.lastScpd)).saved <;>
      simp [hs]

theorem scpPhase_lastScpd_mono (w : World) (st : SyncState) :
    st.lastScpd ≤ (scpPhase w st).1.lastScpd := by
  rw [scpPhase]
  by_cases h : pending_scp_files st.localFiles st.lastScpd = []
  · simp [h]
  · simp only [h, if_false]
    cases hs : (scp_files w.scpOk (pending_scp_files st.localFiles st.lastScpd)).saved with
    | none => simp [hs]
    | some wm =>
      simp only [hs]
      have hlo : wm = (scpGo w.scpOk (pending_scp_files st.localFiles st.lastScpd) 0 "").2.1 ∧
          ¬ ((scpGo w.scpOk (pending_scp_files st.localFiles st.lastScpd) 0 "").2.1 == "") = true := by
        rw [scp_files] at hs
        by_cases hb : ((scpGo w.scpOk (pending_scp_files st.localFiles st.lastScpd) 0 "").2.1 == "") = true
        · simp [hb] at hs
        · rw [if_neg hb] at hs
          exact ⟨(Option.some.injEq _ _).mp hs.symm, hb⟩
      rcases scpGo_last_ok_mem w.scpOk (pending_scp_files st.localFiles st.lastScpd) 0 "" with
        hinit | hmem
      · exfalso
        exact hlo.2 (by rw [hinit]; rfl)
      · rw [hlo.1]
        exact le_trans (le_refl _) (mem_pending_ge hmem)

theorem cleanupPhase_lastSynced (st : SyncState) :
    (cleanupPhase st).1.lastSynced = st.lastSynced := by
  rw [cleanupPhase]
  by_cases h : st.lastSynced = "" <;> simp [h]

theorem cleanupPhase_lastScpd (st : SyncState) :
    (cleanupPhase st).1.lastScpd = st.lastScpd := by
  rw [cleanupPhase]
  by_cases h : st.lastSynced = "" <;> simp [h]

theorem phases23_lastSynced (w : World) (st : SyncState) :
    (phases23 w st).1.lastSynced = st.lastSynced := by
  rw [phases23]
  simp only
  rw [cleanupPhase_lastSynced, scpPhase_lastSynced]

theorem phases23_lastScpd_mono (w : World) (st : SyncState) :
    st.lastScpd ≤ (phases23 w st).1.lastScpd := by
  rw [phases23]
  simp only
  rw [cleanupPhase_lastScpd]
  exact scpPhase_lastScpd_mono w st

theorem deviceBody_lastScpd (w : World) (resync : Bool) (st : SyncState) :
    (deviceBody w resync st).1.lastScpd = st.lastScpd := by
  rw [deviceBody]
  split
  · rfl
  · split
    · rfl
    · split <;>
      · dsimp only
        split
        · rfl
        · split <;> rfl

theorem deviceBody_lastSynced_mono (w : World) (st : SyncState) :
    st.lastSynced ≤ (deviceBody w false st).1.lastSynced := by
  rw [deviceBody]
  split
  · exact le_rfl
  · split
    · exact le_rfl
    · split
      · rename_i h
        exact absurd h (by simp)
      · dsimp only
        split
        · exact le_rfl
        · split
          · exact le_rfl
          · rename_i hdl
            dsimp only
            rw [downloadLoop_eq] at hdl ⊢
            dsimp only at hdl ⊢
            exact mem_new_files_ge (List.mem_of_mem_filter (maxName_mem hdl))

/-! ### Run-shape lemmas -/

theorem run_not_entered (cfg : Config) (w : World) (resync : Bool)
    (st : SyncState) (hent : enteredDevice cfg w resync = false) :
    run cfg w resync st =
      { state := (phases23 w st).1,
        events := (phase1 cfg w resync).2.2 ++ (phases23 w st).2,
        exc := false } := by
  rw [enteredDevice] at hent
  rw [run]
  dsimp only
  rw [if_neg (by rw [hent]; exact Bool.false_ne_true)]

theorem run_entered_exc (cfg : Config) (w : World) (resync : Bool)
    (st : SyncState) (hent : enteredDevice cfg w resync = true)
    (hexc : (deviceBody w resync st).2.2 = true) :
    run cfg w resync st =
      { state := (deviceBody w resync st).1,
        events := (phase1 cfg w resync).2.2 ++ (deviceBody w resync st).2.1 ++
          [Event.reconnectHome (phase1 cfg w resync).2.1],
        exc := true } := by
  rw [enteredDevice] at hent
  rw [run]
  dsimp only
  rw [if_pos hent, if_pos hexc]

theorem run_entered_no_exc (cfg : Config) (w : World) (resync : Bool)
    (st : SyncState) (hent : enteredDevice cfg w resync = true)
    (hexc : (deviceBody w resync st).2.2 = false) :
    run cfg w resync st =
      { state := (phases23 w (deviceBody w resync st).1).1,
        events := ((phase1 cfg w resync).2.2 ++ (deviceBody w resync st).2.1 ++
          [Event.reconnectHome (phase1 cfg w resync).2.1]) ++
            (phases23 w (deviceBody w resync st).1).2,
        exc := false } := by
  rw [enteredDevice] at hent
  rw [run]
  dsimp only
  rw [if_pos hent, if_neg (by rw [hexc]; exact Bool.false_ne_true)]

/-- Under the device-session guard, Phase 1 ended in the recovery branch
(already associated with the device: no scan, no profile) or in the
scan-and-join branch (profile `some 0` created after a scan). -/
theorem phase1_entered_cases (cfg : Config) (w : World) (resync : Bool)
    (hent : enteredDevice cfg w resync = true) :
    ((w.currentSsid == cfg.flashair_ssid) = true ∧
        phase1 cfg w resync = (true, none, [])) ∨
      ((w.currentSsid == cfg.flashair_ssid) = false ∧
        phase1 cfg w resync =
          (true, some 0, [Event.scan, Event.joinFlashair])) := by
  rw [enteredDevice, phase1] at hent
  rw [phase1]
  by_cases h1 : (w.currentSsid == cfg.flashair_ssid) = true
  · left
    exact ⟨h1, by rw [if_pos h1]⟩
  · right
    have h1' : (w.currentSsid == cfg.flashair_ssid) = false :=
      Bool.not_eq_true _ ▸ h1
    rw [if_neg h1] at hent ⊢
    by_cases h2 : (w.inCooldown && !resync) = true
    · rw [if_pos h2] at hent
      cases hent
    · rw [if_neg h2] at hent ⊢
      by_cases h3 : (w.currentSsid == "") = true
      · rw [if_pos h3] at hent
        cases hent
      · rw [if_neg h3] at hent ⊢
        by_cases h4 : w.scanFinds = true
        · rw [if_pos h4]
          exact ⟨h1', rfl⟩
        · rw [if_neg h4] at hent
          cases hent

/-! ### Branch characterizations of the device session body -/

theorem deviceBody_unreachable (w : World) (resync : Bool) (st : SyncState)
    (hreach : w.reachable = false) :
    deviceBody w resync st = (st, [Event.awaitHttp false], false) := by
  rw [deviceBody, hreach]
  rfl

theorem deviceBody_listing_fail (w : World) (resync : Bool) (st : SyncState)
    (hreach : w.reachable = true) (hlist : w.listing = none) :
    deviceBody w resync st = (st, [Event.awaitHttp true], true) := by
  rw [deviceBody, hreach, hlist]
  rfl

/-- When the listing succeeds and at least one new file downloads
successfully, the device session commits the maximum downloaded name and
touches the cooldown, and every new file gets a download attempt event. -/
theorem deviceBody_download (w : World) (resync : Bool) (st : SyncState)
    (content : String) (hreach : w.reachable = true)
    (hlist : w.listing = some content)
    (hdl : (collect_new_files (list_flashair_files content)
      (if resync then "" else st.lastSynced)).1.filter w.downloadOk ≠ []) :
    deviceBody w resync st =
      ({ lastSynced := maxName ((collect_new_files (list_flashair_files content)
            (if resync then "" else st.lastSynced)).1.filter w.downloadOk),
         lastScpd := st.lastScpd,
         localFiles := ((collect_new_files (list_flashair_files content)
            (if resync then "" else st.lastSynced)).1.filter w.downloadOk).foldl
              addLocal st.localFiles },
       Event.awaitHttp true ::
          ((collect_new_files (list_flashair_files content)
            (if resync then "" else st.lastSynced)).1.map
              (fun f => Event.downloadAttempt f (w.downloadOk f))) ++
            [Event.touchCooldown],
       false) := by
  have hns : (collect_new_files (list_flashair_files content)
      (if resync then "" else st.lastSynced)).1 ≠ [] := by
    intro h
    rw [h] at hdl
    exact hdl rfl
  rw [deviceBody, hreach, hlist]
  dsimp only
  rw [if_neg (by simp), if_neg hns, downloadLoop_eq]
  dsimp only
  rw [if_neg hdl]

/-! ### Event shapes of the phases -/

theorem deviceBody_events_shape (w : World) (resync : Bool) (st : SyncState) :
    ∀ e ∈ (deviceBody w resync st).2.1,
      e = Event.awaitHttp w.reachable ∨ e = Event.touchCooldown ∨
        ∃ n b, e = Event.downloadAttempt n b := by
  cases hre : w.reachable with
  | false =>
    rw [deviceBody_unreachable w resync st hre]
    intro e he
    simp only [List.mem_singleton] at he
    exact Or.inl he
  | true =>
    cases hl : w.listing with
    | none =>
      rw [deviceBody_listing_fail w resync st hre hl]
      intro e he
      simp only [List.mem_singleton] at he
      exact Or.inl he
    | some content =>
      rw [deviceBody, hre, hl]
      dsimp only
      by_cases hns : (collect_new_files (list_flashair_files content)
          (if resync then "" else st.lastSynced)).1 = []
      · rw [if_pos hns]
        intro e he
        rcases List.mem_cons.mp he with h1 | h2
        · exact Or.inl h1
        · simp only [List.mem_singleton] at h2
          exact Or.inr (Or.inl h2)
      · rw [if_neg hns, downloadLoop_eq]
        dsimp only
        by_cases hdl : List.filter w.downloadOk
            (collect_new_files (list_flashair_files content)
              (if resync then "" else st.lastSynced)).1 = []
        · rw [if_pos hdl]
          intro e he
          rcases List.mem_cons.mp he with h1 | h2
          · exact Or.inl h1
          · obtain ⟨n, -, rfl⟩ := List.mem_map.mp h2
            exact Or.inr (Or.inr ⟨n, _, rfl⟩)
        · rw [if_neg hdl]
          intro e he
          rcases List.mem_cons.mp he with h1 | h2
          · exact Or.inl h1
          · rcases List.mem_append.mp h2 with h3 | h4
            · obtain ⟨n, -, rfl⟩ := List.mem_map.mp h3
              exact Or.inr (Or.inr ⟨n, _, rfl⟩)
            · simp only [List.mem_singleton] at h4
              exact Or.inr (Or.inl h4)

theorem deviceBody_awaitHttp_mem (w : World) (resync : Bool) (st : SyncState) :
    Event.awaitHttp w.reachable ∈ (deviceBody w resync st).2.1 := by
  cases hre : w.reachable with
  | false =>
    rw [deviceBody_unreachable w resync st hre]
    simp
  | true =>
    cases hl : w.listing with
    | none =>
      rw [deviceBody_listing_fail w resync st hre hl]
      simp
    | some content =>
      rw [deviceBody, hre, hl]
      dsimp only
      by_cases hns : (collect_new_files (list_flashair_files content)
          (if resync then "" else st.lastSynced)).1 = []
      · rw [if_pos hns]
        simp
      · rw [if_neg hns, downloadLoop_eq]
        dsimp only
        by_cases hdl : List.filter w.downloadOk
            (collect_new_files (list_flashair_files content)
              (if resync then "" else st.lastSynced)).1 = []
        · rw [if_pos hdl]
          simp
        · rw [if_neg hdl]
          simp

theorem scpPhase_events_shape (w : World) (st : SyncState) :
    ∀ e ∈ (scpPhase w st).2, ∃ n b, e = Event.scpAttempt n b := by
  rw [scpPhase]
  split
  · intro e he
    cases he
  · dsimp only
    intro e he
    simp only [List.mem_map] at he
    obtain ⟨f, -, rfl⟩ := he
    exact ⟨f, w.scpOk f, rfl⟩

theorem cleanupPhase_events_shape (st : SyncState) :
    ∀ e ∈ (cleanupPhase st).2, ∃ n, e = Event.deleteFile n := by
  rw [cleanupPhase]
  split
  · intro e he
    cases he
  · intro e he
    simp only [List.mem_map] at he
    obtain ⟨f, -, rfl⟩ := he
    exact ⟨f, rfl⟩

theorem phases23_events_shape (w : World) (st : SyncState) :
    ∀ e ∈ (phases23 w st).2,
      (∃ n b, e = Event.scpAttempt n b) ∨ ∃ n, e = Event.deleteFile n := by
  rw [phases23]
  dsimp only
  intro e he
  rcases List.mem_append.mp he with h | h
  · exact Or.inl (scpPhase_events_shape w st e h)
  · exact Or.inr (cleanupPhase_events_shape _ e h)

/-! ## Claim C1 -/

/-- C1 (counterexample): the claim includes runs started with `--resync`,
but a resync run sets the effective watermark to `""`, so when the device
listing only holds `log_001_a.csv` while the stored `LAST_SYNCED` is
`log_002_b.csv`, the run commits `LAST_SYNCED = "log_001_a.csv"`, moving
the download watermark lexically backward. -/
theorem c1_resync_moves_watermark_back :
    stAhead.lastSynced = "log_002_b.csv" ∧
      (run exCfg wOldOnly true stAhead).state.lastSynced = "log_001_a.csv" ∧
      ¬ stAhead.lastSynced ≤ (run exCfg wOldOnly true stAhead).state.lastSynced := by
  refine ⟨rfl, by decide, ?_⟩
  intro h
  have hb := (strLe_iff stAhead.lastSynced
    (run exCfg wOldOnly true stAhead).state.lastSynced).mpr h
  revert hb
  decide

/-- C1 (amended): across every run, the stored upload watermark
(`LAST_SCPD`) never moves lexically backward, and for runs started
without the `--resync` flag the stored download watermark (`LAST_SYNCED`)
never moves backward either; a resync run can move the download watermark
backward (see the counterexample). -/
theorem c1_watermarks_monotone (cfg : Config) (w : World) (resync : Bool)
    (st : SyncState) :
    st.lastScpd ≤ (run cfg w resync st).state.lastScpd ∧
      (resync = false →
        st.lastSynced ≤ (run cfg w resync st).state.lastSynced) := by
  rw [run]
  dsimp only
  split
  · split
    · constructor
      · rw [deviceBody_lastScpd]
      · intro hres
        subst hres
        exact deviceBody_lastSynced_mono w st
    · constructor
      · calc st.lastScpd = (deviceBody w resync st).1.lastScpd :=
              (deviceBody_lastScpd w resync st).symm
          _ ≤ _ := phases23_lastScpd_mono w _
      · intro hres
        subst hres
        rw [phases23_lastSynced]
        exact deviceBody_lastSynced_mono w st
  · constructor
    · exact phases23_lastScpd_mono w st
    · intro _
      rw [phases23_lastSynced]

/-- C1 (witness): the amended monotonicity at a concrete cooldown-skip
run. -/
theorem c1_watermarks_monotone_witness :
    stPendingOne.lastScpd ≤
        (run exCfg wCooldownHome false stPendingOne).state.lastScpd ∧
      (false = false →
        stPendingOne.lastSynced ≤
          (run exCfg wCooldownHome false stPendingOne).state.lastSynced) :=
  c1_watermarks_monotone exCfg wCooldownHome false stPendingOne

theorem countP_reconnect_deviceBody (w : World) (resync : Bool)
    (st : SyncState) :
    (deviceBody w resync st).2.1.countP isReconnectHomeEv = 0 :=
  List.countP_eq_zero.mpr (fun e he => by
    rcases deviceBody_events_shape w resync st e he with h | h | ⟨n, b, h⟩ <;>
      subst h <;> simp [isReconnectHomeEv])

theorem countP_reconnect_phases23 (w : World) (st : SyncState) :
    (phases23 w st).2.countP isReconnectHomeEv = 0 :=
  List.countP_eq_zero.mpr (fun e he => by
    rcases phases23_events_shape w st e he with ⟨n, b, h⟩ | ⟨n, h⟩ <;>
      subst h <;> simp [isReconnectHomeEv])

/-! ## Claim C2 -/

/-- C2 (counterexample): with the device session entered, HTTP reachable,
a failing listing request and one local file pending upload, the modelled
run propagates the exception (`exc = true`), attempts no upload even
though one is pending, and its trace ends right after the return-home
step — refuting "the upload phase and the cleanup phase still execute
... and the process exits successfully". -/
theorem c2_listing_failure_kills_run :
    pending_scp_files stPendingOne.localFiles stPendingOne.lastScpd =
        ["log_001_a.csv"] ∧
      (run exCfg wListFail false stPendingOne).exc = true ∧
      Event.scpAttempt "log_001_a.csv" true ∉
        (run exCfg wListFail false stPendingOne).events ∧
      (run exCfg wListFail false stPendingOne).events =
        [Event.awaitHttp true, Event.reconnectHome none] :=
  ⟨by decide, by decide, by decide, by decide⟩

/-- C2 (amended): if the listing request fails after the session was
entered and HTTP was reachable, `reconnect_home` is still attempted (the
`finally`), but the exception propagates: the persisted state is
untouched, no upload and no cleanup action happens in that run, and the
process exits abnormally instead of successfully. -/
theorem c2_listing_failure_aborts_run (cfg : Config) (w : World)
    (resync : Bool) (st : SyncState)
    (hent : enteredDevice cfg w resync = true)
    (hreach : w.reachable = true) (hlist : w.listing = none) :
    (run cfg w resync st).exc = true ∧
      (run cfg w resync st).state = st ∧
      (∀ n b, Event.scpAttempt n b ∉ (run cfg w resync st).events) ∧
      (∀ n, Event.deleteFile n ∉ (run cfg w resync st).events) ∧
      Event.reconnectHome (phase1 cfg w resync).2.1 ∈
        (run cfg w resync st).events := by
  have hdev := deviceBody_listing_fail w resync st hreach hlist
  have hexc : (deviceBody w resync st).2.2 = true := by rw [hdev]
  rw [run_entered_exc cfg w resync st hent hexc]
  dsimp only
  rw [hdev]
  dsimp only
  rcases phase1_entered_cases cfg w resync hent with ⟨-, hp⟩ | ⟨-, hp⟩ <;>
    rw [hp] <;>
    exact ⟨rfl, rfl, fun n b hm => by simp at hm, fun n hm => by simp at hm,
      by simp⟩

/-- C2 (witness): the amended behaviour at the concrete scenario of the
counterexample. -/
theorem c2_listing_failure_aborts_run_witness :
    (run exCfg wListFail false stPendingOne).exc = true ∧
      (run exCfg wListFail false stPendingOne).state = stPendingOne :=
  ⟨(c2_listing_failure_aborts_run exCfg wListFail false stPendingOne
      (by decide) (by decide) rfl).1,
    (c2_listing_failure_aborts_run exCfg wListFail false stPendingOne
      (by decide) (by decide) rfl).2.1⟩

/-! ## Claim C7 -/

/-- C7: whenever a device session is entered, the run's trace contains
exactly one return-home step — on every exit path (reachability failure,
listing exception, partial download failure, success) — and the handle it
passes is the Phase-1 `net_id`, which is `none` exactly on the recovery
path (current association already the device network). -/
theorem c7_return_home_exactly_once (cfg : Config) (w : World)
    (resync : Bool) (st : SyncState)
    (hent : enteredDevice cfg w resync = true) :
    (run cfg w resync st).events.countP isReconnectHomeEv = 1 ∧
      Event.reconnectHome (phase1 cfg w resync).2.1 ∈
        (run cfg w resync st).events ∧
      ((phase1 cfg w resync).2.1 = none ↔
        w.currentSsid = cfg.flashair_ssid) := by
  have hiff : (phase1 cfg w resync).2.1 = none ↔
      w.currentSsid = cfg.flashair_ssid := by
    rcases phase1_entered_cases cfg w resync hent with ⟨hc, hp⟩ | ⟨hc, hp⟩
    · rw [hp]
      exact iff_of_true rfl (by simpa using hc)
    · rw [hp]
      refine iff_of_false (by simp) ?_
      intro h
      rw [h] at hc
      simp at hc
  have hcount0 : (phase1 cfg w resync).2.2.countP isReconnectHomeEv = 0 := by
    rcases phase1_entered_cases cfg w resync hent with ⟨-, hp⟩ | ⟨-, hp⟩ <;>
      rw [hp] <;> simp [isReconnectHomeEv]
  cases hexc : (deviceBody w resync st).2.2 with
  | true =>
    rw [run_entered_exc cfg w resync st hent hexc]
    dsimp only
    refine ⟨?_, ?_, hiff⟩
    · rw [List.countP_append, List.countP_append, hcount0,
        countP_reconnect_deviceBody]
      simp [List.countP_cons, isReconnectHomeEv]
    · exact List.mem_append.mpr (Or.inr (List.mem_singleton.mpr rfl))
  | false =>
    rw [run_entered_no_exc cfg w resync st hent hexc]
    dsimp only
    refine ⟨?_, ?_, hiff⟩
    · rw [List.countP_append, List.countP_append, List.countP_append, hcount0,
        countP_reconnect_deviceBody, countP_reconnect_phases23]
      simp [List.countP_cons, isReconnectHomeEv]
    · exact List.mem_append.mpr (Or.inl (List.mem_append.mpr
        (Or.inr (List.mem_singleton.mpr rfl))))

/-- C7 (witness): the scan-and-join path with an unreachable device still
performs exactly one return-home, passing the created handle. -/
theorem c7_return_home_exactly_once_witness :
    (run exCfg wScanHit false stEmpty).events.countP isReconnectHomeEv = 1 ∧
      Event.reconnectHome (phase1 exCfg wScanHit false).2.1 ∈
        (run exCfg wScanHit false stEmpty).events :=
  ⟨(c7_return_home_exactly_once exCfg wScanHit false stEmpty (by decide)).1,
   (c7_return_home_exactly_once exCfg wScanHit false stEmpty (by decide)).2.1⟩

/-! ## Claim C8 -/

/-- C8: a run without the resync flag, with the cooldown active and the
host on the home network (distinct from the device network), skips the
whole device phase: the run is exactly the upload and cleanup phases on
the initial state — no scan, no join, no device session wait. -/
theorem c8_cooldown_skips_device_phase (cfg : Config) (w : World)
    (st : SyncState) (hcd : w.inCooldown = true)
    (hhome : w.currentSsid = cfg.home_ssid)
    (hne : cfg.home_ssid ≠ cfg.flashair_ssid) :
    (run cfg w false st).state = (phases23 w st).1 ∧
      (run cfg w false st).events = (phases23 w st).2 ∧
      (run cfg w false st).exc = false ∧
      Event.scan ∉ (run cfg w false st).events ∧
      Event.joinFlashair ∉ (run cfg w false st).events ∧
      (∀ b, Event.awaitHttp b ∉ (run cfg w false st).events) := by
  have hp : phase1 cfg w false = (false, none, []) := by
    rw [phase1]
    rw [if_neg (fun h => hne (beq_iff_eq.mp (hhome ▸ h)))]
    rw [if_pos (by rw [hcd]; rfl)]
  have hent : enteredDevice cfg w false = false := by
    rw [enteredDevice, hp]
    rfl
  rw [run_not_entered cfg w false st hent, hp]
  dsimp only
  rw [List.nil_append]
  refine ⟨rfl, rfl, rfl, ?_, ?_, ?_⟩
  · intro hm
    rcases phases23_events_shape w st _ hm with ⟨n, b, h⟩ | ⟨n, h⟩ <;>
      exact Event.noConfusion h
  · intro hm
    rcases phases23_events_shape w st _ hm with ⟨n, b, h⟩ | ⟨n, h⟩ <;>
      exact Event.noConfusion h
  · intro b hm
    rcases phases23_events_shape w st _ hm with ⟨n, b', h⟩ | ⟨n, h⟩ <;>
      exact Event.noConfusion h

/-- C8 (witness): the cooldown skip at a concrete home-network world. -/
theorem c8_cooldown_skips_device_phase_witness :
    (run exCfg wCooldownHome false stEmpty).state =
        (phases23 wCooldownHome stEmpty).1 ∧
      (run exCfg wCooldownHome false stEmpty).events =
        (phases23 wCooldownHome stEmpty).2 ∧
      (run exCfg wCooldownHome false stEmpty).exc = false :=
  ⟨(c8_cooldown_skips_device_phase exCfg wCooldownHome stEmpty rfl rfl
      (by decide)).1,
   (c8_cooldown_skips_device_phase exCfg wCooldownHome stEmpty rfl rfl
      (by decide)).2.1,
   (c8_cooldown_skips_device_phase exCfg wCooldownHome stEmpty rfl rfl
      (by decide)).2.2.1⟩

/-! ## Claim C9 -/

/-- C9: when the current WiFi association at run start equals the device
network name, the run enters the device session directly — the HTTP wait
happens — without any scan and without creating a transient profile
(return-home is passed `none`), regardless of the cooldown state (the
world's cooldown flag is universally quantified). -/
theorem c9_recovery_enters_session (cfg : Config) (w : World)
    (resync : Bool) (st : SyncState)
    (hcur : w.currentSsid = cfg.flashair_ssid) :
    Event.scan ∉ (run cfg w resync st).events ∧
      Event.joinFlashair ∉ (run cfg w resync st).events ∧
      Event.awaitHttp w.reachable ∈ (run cfg w resync st).events ∧
      Event.reconnectHome none ∈ (run cfg w resync st).events := by
  have hp : phase1 cfg w resync = (true, none, []) := by
    rw [phase1, if_pos (by rw [hcur, beq_self_eq_true])]
  have hent : enteredDevice cfg w resync = true := by
    rw [enteredDevice, hp]
    rfl
  cases hexc : (deviceBody w resync st).2.2 with
  | true =>
    rw [run_entered_exc cfg w resync st hent hexc, hp]
    dsimp only
    rw [List.nil_append]
    refine ⟨?_, ?_, ?_, ?_⟩
    · intro hm
      rcases List.mem_append.mp hm with h | h
      · rcases deviceBody_events_shape w resync st _ h with h' | h' | ⟨n, b, h'⟩ <;>
          exact Event.noConfusion h'
      · simp only [List.mem_singleton] at h
        exact Event.noConfusion h
    · intro hm
      rcases List.mem_append.mp hm with h | h
      · rcases deviceBody_events_shape w resync st _ h with h' | h' | ⟨n, b, h'⟩ <;>
          exact Event.noConfusion h'
      · simp only [List.mem_singleton] at h
        exact Event.noConfusion h
    · exact List.mem_append.mpr (Or.inl (deviceBody_awaitHttp_mem w resync st))
    · exact List.mem_append.mpr (Or.inr (List.mem_singleton.mpr rfl))
  | false =>
    rw [run_entered_no_exc cfg w resync st hent hexc, hp]
    dsimp only
    rw [List.nil_append]
    refine ⟨?_, ?_, ?_, ?_⟩
    · intro hm
      rcases List.mem_append.mp hm with h | h
      · rcases List.mem_append.mp h with h' | h'
        · rcases deviceBody_events_shape w resync st _ h' with h2 | h2 | ⟨n, b, h2⟩ <;>
            exact Event.noConfusion h2
        · simp only [List.mem_singleton] at h'
          exact Event.noConfusion h'
      · rcases phases23_events_shape w _ _ h with ⟨n, b, h'⟩ | ⟨n, h'⟩ <;>
          exact Event.noConfusion h'
    · intro hm
      rcases List.mem_append.mp hm with h | h
      · rcases List.mem_append.mp h with h' | h'
        · rcases deviceBody_events_shape w resync st _ h' with h2 | h2 | ⟨n, b, h2⟩ <;>
            exact Event.noConfusion h2
        · simp only [List.mem_singleton] at h'
          exact Event.noConfusion h'
      · rcases phases23_events_shape w _ _ h with ⟨n, b, h'⟩ | ⟨n, h'⟩ <;>
          exact Event.noConfusion h'
    · exact List.mem_append.mpr (Or.inl (List.mem_append.mpr
        (Or.inl (deviceBody_awaitHttp_mem w resync st))))
    · exact List.mem_append.mpr (Or.inl (List.mem_append.mpr
        (Or.inr (List.mem_singleton.mpr rfl))))

/-- C9 (witness): recovery at a concrete world that is still in cooldown:
the session is entered (HTTP wait present) with no scan and no transient
profile. -/
theorem c9_recovery_enters_session_witness :
    Event.scan ∉ (run exCfg wRecovery false stEmpty).events ∧
      Event.joinFlashair ∉ (run exCfg wRecovery false stEmpty).events ∧
      Event.awaitHttp wRecovery.reachable ∈
        (run exCfg wRecovery false stEmpty).events ∧
      Event.reconnectHome none ∈ (run exCfg wRecovery false stEmpty).events :=
  c9_recovery_enters_session exCfg wRecovery false stEmpty rfl

/-! ## Claim C10 -/

/-- C10: the device-side listing filter and the local enumeration pattern
disagree: any name accepted by the listing filter but not by the local
glob — such as `log_1.CSV`, which the modelled run downloads — is never
returned by the pending-upload enumeration and never deleted by cleanup,
for every directory, watermark and retention count. -/
theorem c10_filter_mismatch (f : String) (dirFiles : List String)
    (wm : String) (k : Nat)
    (h1 : matchesListingFilter f = true)
    (h2 : matchesLocalPattern f = false) :
    f ∉ pending_scp_files dirFiles wm ∧
      f ∉ cleanup_local dirFiles wm k ∧
      matchesListingFilter f ≠ matchesLocalPattern f ∧
      matchesListingFilter "log_1.CSV" = true ∧
      matchesLocalPattern "log_1.CSV" = false ∧
      Event.downloadAttempt "log_1.CSV" true ∈
        (run exCfg wMixedCase false stEmpty).events := by
  refine ⟨?_, ?_, by rw [h1, h2]; simp, by decide, by decide, by decide⟩
  · intro hmem
    rw [pending_scp_files] at hmem
    have hmat := (List.mem_filter.mp (mem_sortStr.mp
      (List.mem_filter.mp hmem).1)).2
    rw [h2] at hmat
    cases hmat
  · intro hmem
    rw [cleanup_local] at hmem
    have hmat := (List.mem_filter.mp (mem_sortStr.mp
      (List.mem_filter.mp hmem).1)).2
    rw [h2] at hmat
    cases hmat

/-- C10 (witness): `log_1.CSV` is neither pending for upload nor deleted,
even when it sits in the local directory. -/
theorem c10_filter_mismatch_witness :
    "log_1.CSV" ∉ pending_scp_files ["log_1.CSV", "log_001_a.csv"] "" ∧
      "log_1.CSV" ∉ cleanup_local ["log_1.CSV", "log_001_a.csv"] "log_9" 10 :=
  ⟨(c10_filter_mismatch "log_1.CSV" ["log_1.CSV", "log_001_a.csv"] "" 10
      (by decide) (by decide)).1,
   (c10_filter_mismatch "log_1.CSV" ["log_1.CSV", "log_001_a.csv"] "log_9" 10
      (by decide) (by decide)).2.1⟩

/-! ## Claim C6 -/

/-- C6: over a duplicate-free local directory and positive retention
count, cleanup deletes exactly the names that match the local pattern,
are lexically `<=` the download watermark, and have at least `k` strictly
larger matching names (i.e. are not among the `k` most recent); in
particular the `k` most recent matching files are never deleted and
non-matching files are never deleted. With the 12 ascending files of
`files12`, watermark equal to the 12th name and retention 10, exactly the
oldest two are deleted and 10 remain. -/
theorem c6_cleanup_retention (dirFiles : List String) (wm : String)
    (k : Nat) (x : String) (hnd : dirFiles.Nodup) (hk : 0 < k) :
    (x ∈ cleanup_local dirFiles wm k ↔
        x ∈ dirFiles ∧ matchesLocalPattern x = true ∧ x ≤ wm ∧
          k ≤ ((dirFiles.filter matchesLocalPattern).filter
            (fun g => strLt x g)).length) ∧
      cleanup_local files12 "log_012_l.csv" 10 =
        ["log_001_a.csv", "log_002_b.csv"] ∧
      (files12.filter
        (fun f => !((cleanup_local files12 "log_012_l.csv" 10).contains f))).length
        = 10 := by
  refine ⟨?_, by decide, by decide⟩
  have hand : (sortStr (dirFiles.filter matchesLocalPattern)).Nodup :=
    ((sortStr_perm _).nodup_iff).mpr (hnd.filter _)
  have hsort : (sortStr (dirFiles.filter matchesLocalPattern)).Sorted (· < ·) :=
    sorted_lt_of_sorted_le_nodup (sortStr_sorted_le _) hand
  have hdrop := mem_drop_sorted_iff _ hsort k x
  have hcnt : ((sortStr (dirFiles.filter matchesLocalPattern)).filter
      (fun g => strLt x g)).length =
      ((dirFiles.filter matchesLocalPattern).filter (fun g => strLt x g)).length :=
    ((sortStr_perm _).filter _).length_eq
  rw [cleanup_local]
  rw [if_neg (Nat.pos_iff_ne_zero.mp hk), List.mem_filter]
  constructor
  · rintro ⟨hmem, hcond⟩
    rw [Bool.and_eq_true] at hcond
    obtain ⟨hle, hnprot⟩ := hcond
    have hx2 := List.mem_filter.mp (mem_sortStr.mp hmem)
    refine ⟨hx2.1, hx2.2, (strLe_iff _ _).mp hle, ?_⟩
    rw [← hcnt]
    by_contra hlt
    have hin : x ∈ (sortStr (dirFiles.filter matchesLocalPattern)).drop
        ((sortStr (dirFiles.filter matchesLocalPattern)).length - k) :=
      hdrop.mpr ⟨hmem, by omega⟩
    have : ((sortStr (dirFiles.filter matchesLocalPattern)).drop
        ((sortStr (dirFiles.filter matchesLocalPattern)).length - k)).contains x
        = true := List.elem_iff.mpr hin
    rw [this] at hnprot
    cases hnprot
  · rintro ⟨hdirs, hmat, hle, hcnt'⟩
    have hmem : x ∈ sortStr (dirFiles.filter matchesLocalPattern) :=
      mem_sortStr.mpr (List.mem_filter.mpr ⟨hdirs, hmat⟩)
    refine ⟨hmem, ?_⟩
    rw [Bool.and_eq_true]
    refine ⟨(strLe_iff _ _).mpr hle, ?_⟩
    have hnot : x ∉ (sortStr (dirFiles.filter matchesLocalPattern)).drop
        ((sortStr (dirFiles.filter matchesLocalPattern)).length - k) := by
      intro hx
      have := (hdrop.mp hx).2
      rw [hcnt] at this
      omega
    cases hc : ((sortStr (dirFiles.filter matchesLocalPattern)).drop
        ((sortStr (dirFiles.filter matchesLocalPattern)).length - k)).contains x
    · rfl
    · exact absurd (List.elem_iff.mp hc) hnot

/-- C6 (witness): the retention characterization applied to the oldest of
the 12 files. -/
theorem c6_cleanup_retention_witness :
    ("log_001_a.csv" ∈ cleanup_local files12 "log_012_l.csv" 10 ↔
        "log_001_a.csv" ∈ files12 ∧
          matchesLocalPattern "log_001_a.csv" = true ∧
          "log_001_a.csv" ≤ "log_012_l.csv" ∧
          10 ≤ ((files12.filter matchesLocalPattern).filter
            (fun g => strLt "log_001_a.csv" g)).length) ∧
      cleanup_local files12 "log_012_l.csv" 10 =
        ["log_001_a.csv", "log_002_b.csv"] ∧
      (files12.filter
        (fun f => !((cleanup_local files12 "log_012_l.csv" 10).contains f))).length
        = 10 :=
  c6_cleanup_retention files12 "log_012_l.csv" 10 "log_001_a.csv"
    (by decide) (by decide)

/-! ## Claim C3 -/

/-- C3: in a device session whose listing succeeds, when at least one new
file downloads successfully the committed download watermark is the
lexical maximum of the successfully fetched names (it is one of them and
bounds all of them) — not the last attempted and not the maximum of the
listing — and every new file is attempted (a failure only skips that
file). -/
theorem c3_partial_download_watermark (cfg : Config) (w : World)
    (resync : Bool) (st : SyncState) (content : String)
    (hent : enteredDevice cfg w resync = true)
    (hreach : w.reachable = true)
    (hlist : w.listing = some content)
    (hne : (collect_new_files (list_flashair_files content)
      (if resync then "" else st.lastSynced)).1.filter w.downloadOk ≠ []) :
    (run cfg w resync st).state.lastSynced ∈
        (collect_new_files (list_flashair_files content)
          (if resync then "" else st.lastSynced)).1.filter w.downloadOk ∧
      (∀ g ∈ (collect_new_files (list_flashair_files content)
          (if resync then "" else st.lastSynced)).1.filter w.downloadOk,
        g ≤ (run cfg w resync st).state.lastSynced) ∧
      (∀ f ∈ (collect_new_files (list_flashair_files content)
          (if resync then "" else st.lastSynced)).1,
        Event.downloadAttempt f (w.downloadOk f) ∈ (run cfg w resync st).events) := by
  have hdev := deviceBody_download w resync st content hreach hlist hne
  have hexc : (deviceBody w resync st).2.2 = false := by rw [hdev]
  rw [run_entered_no_exc cfg w resync st hent hexc]
  dsimp only
  rw [hdev]
  dsimp only
  refine ⟨?_, ?_, ?_⟩
  · rw [phases23_lastSynced]
    exact maxName_mem hne
  · intro g hg
    rw [phases23_lastSynced]
    exact le_maxName hg
  · intro f hf
    refine List.mem_append.mpr (Or.inl ?_)
    refine List.mem_append.mpr (Or.inl ?_)
    refine List.mem_append.mpr (Or.inr ?_)
    refine List.mem_cons.mpr (Or.inr ?_)
    exact List.mem_append.mpr (Or.inl (List.mem_map.mpr ⟨f, hf, rfl⟩))

/-- C3 (witness): with new files `[log_002_b.csv, log_003_c.csv]` where
fetching `log_003_c.csv` fails and `log_002_b.csv` succeeds, the committed
download watermark is `log_002_b.csv`. -/
theorem c3_partial_download_watermark_witness :
    (run exCfg wPartialFail false stSyncedOne).state.lastSynced =
        "log_002_b.csv" ∧
      (run exCfg wPartialFail false stSyncedOne).state.lastSynced ∈
        (collect_new_files (list_flashair_files
            "WLANSD_FILELIST\n/DIR,log_002_b.csv,100,0,0,0\n/DIR,log_003_c.csv,100,0,0,0")
          (if false then "" else stSyncedOne.lastSynced)).1.filter
            wPartialFail.downloadOk :=
  ⟨by decide,
    (c3_partial_download_watermark exCfg wPartialFail false stSyncedOne
      "WLANSD_FILELIST\n/DIR,log_002_b.csv,100,0,0,0\n/DIR,log_003_c.csv,100,0,0,0"
      (by decide) (by decide) (by decide) (by decide)).1⟩

/-! ## Claim C4 -/

/-- C4: `scp_files` sends the pending files one at a time in the given
order and stops at the first failure. If everything before `f` succeeds
and `f` fails, then exactly `pre.length` files are transferred, the
attempted list is exactly `pre ++ [f]` (nothing after `f` is tried), and
the upload watermark is committed exactly when at least one transfer
succeeded, to the last succeeded name (`pre.getLast?`). -/
theorem c4_scp_stop_on_failure (ok : String → Bool) (pre : List String)
    (f : String) (post : List String)
    (hpre : ∀ g ∈ pre, ok g = true) (hf : ok f = false) (hne : "" ∉ pre) :
    (scp_files ok (pre ++ f :: post)).transferred = pre.length ∧
      (scp_files ok (pre ++ f :: post)).attempted = pre ++ [f] ∧
      (scp_files ok (pre ++ f :: post)).saved = pre.getLast? := by
  have hgo := scpGo_spec ok f post hf pre 0 "" hpre
  rw [scp_files, hgo]
  dsimp only
  refine ⟨by omega, rfl, ?_⟩
  rcases List.eq_nil_or_concat pre with rfl | ⟨ys, y, rfl⟩
  · rfl
  · rw [List.concat_eq_append] at *
    have hy : y ≠ "" := by
      intro h
      exact hne (h ▸ List.mem_append.mpr (Or.inr (List.mem_singleton.mpr rfl)))
    rw [List.getLastD_concat, List.getLast?_concat]
    rw [if_neg (by simp [hy])]

/-- C4 (witness): three pending files where the second transfer fails:
one file transferred, the third never attempted, watermark committed to
the first file's name. -/
theorem c4_scp_stop_on_failure_witness :
    (scp_files (fun g => g == "log_001_a.csv")
        (["log_001_a.csv"] ++ "log_002_b.csv" :: ["log_003_c.csv"])).transferred =
        ["log_001_a.csv"].length ∧
      (scp_files (fun g => g == "log_001_a.csv")
        (["log_001_a.csv"] ++ "log_002_b.csv" :: ["log_003_c.csv"])).attempted =
        ["log_001_a.csv"] ++ ["log_002_b.csv"] ∧
      (scp_files (fun g => g == "log_001_a.csv")
        (["log_001_a.csv"] ++ "log_002_b.csv" :: ["log_003_c.csv"])).saved =
        ["log_001_a.csv"].getLast? :=
  c4_scp_stop_on_failure (fun g => g == "log_001_a.csv") ["log_001_a.csv"]
    "log_002_b.csv" ["log_003_c.csv"] (by decide) (by decide) (by decide)

/-! ## Claim C5 -/

/-- C5: `collect_new_files` partitions the listing: a file lands in the
new list iff the watermark is empty or lexically below it, and in the
skipped list iff the watermark is non-empty and the name is `<=` it; an
empty watermark makes every listed file new; and on the listing
`[log_001_a, log_002_b, log_003_c]` with watermark `log_001_a.csv` the
partition is exactly (`[log_002_b, log_003_c]`, `[log_001_a]`). -/
theorem c5_partition_correct (files : List String) (wm : String) :
    (collect_new_files files wm).1 =
        files.filter (fun f => (wm == "") || strLt wm f) ∧
      (collect_new_files files wm).2 =
        files.filter (fun f => !(wm == "") && strLe f wm) ∧
      (∀ f, f ∈ (collect_new_files files wm).1 ↔
        f ∈ files ∧ (wm = "" ∨ wm < f)) ∧
      (∀ f, f ∈ (collect_new_files files wm).2 ↔
        f ∈ files ∧ wm ≠ "" ∧ f ≤ wm) ∧
      (collect_new_files files "").1 = files ∧
      (collect_new_files files "").2 = [] ∧
      collect_new_files ["log_001_a.csv", "log_002_b.csv", "log_003_c.csv"]
          "log_001_a.csv" =
        (["log_002_b.csv", "log_003_c.csv"], ["log_001_a.csv"]) := by
  refine ⟨(congrArg Prod.fst (collect_new_files_eq files wm)),
    (congrArg Prod.snd (collect_new_files_eq files wm)), ?_, ?_, ?_, ?_, by decide⟩
  · intro f
    rw [collect_new_files_eq]
    simp only [List.mem_filter, Bool.or_eq_true, beq_iff_eq, strLt_iff]
  · intro f
    rw [collect_new_files_eq]
    simp only [List.mem_filter, Bool.and_eq_true, Bool.not_eq_true',
      beq_eq_false_iff_ne, strLe_iff]
  · rw [collect_new_files_eq]
    simp
  · rw [collect_new_files_eq]
    simp

end FlashairSync
